import Mathlib

/-!
Shallow embedding of the statistical core of StockPulse 360
(`forecast_model.py`, `anomaly_detector.py`, `seasonal_forecaster.py`).

Numeric values are modelled as exact rationals (`ℚ`); calendar dates as
natural-number day indices, with day `0` chosen to be a Monday.  The Python
code works on IEEE doubles; every formula in scope (means, weighted means,
least-squares slope, ratios) is a rational function of its inputs, so the
rational model is the exact mathematical content of the code.  The one
non-rational quantity, the standard deviation used by the confidence score
(`np.std`, a square root), is modelled over `ℝ`.
-/

/-- Pandas `Timestamp.dayofweek` convention: Monday = 0 … Sunday = 6.
Day numbers are absolute day indices with day 0 a Monday. -/
def pandasDow (d : ℕ) : ℕ := d % 7

/-- Snowflake `DAYOFWEEK` convention as used by this repository
(`analyze_weekly_patterns` maps 0 → Sunday, …, 6 → Saturday):
Sunday = 0 … Saturday = 6.  With day 0 a Monday this is `(d + 1) % 7`. -/
def snowflakeDow (d : ℕ) : ℕ := (d + 1) % 7

/-- Arithmetic mean of a list, `np.mean` / SQL `AVG`; `0` on the empty list
(Lean's `x / 0 = 0` convention). -/
def listMean (l : List ℚ) : ℚ := l.sum / l.length

/-- Sum of `(i+1) * l[i]`: numerator of `np.average(issued, weights=1..n)`
in `_forecast_item` (`weights = np.arange(1, len(issued) + 1)`). -/
def weightedSum (l : List ℚ) : ℚ :=
  ∑ i in Finset.range l.length, ((i : ℚ) + 1) * l.getD i 0

/-- Sum of the weights `1..n`. -/
def weightTotal (n : ℕ) : ℚ := ∑ i in Finset.range n, ((i : ℚ) + 1)

/-- Weighted moving average `wma = np.average(issued, weights=1..n)`:
earliest element weight 1, most recent weight `n`, normalized by the
weight sum. -/
def wma (l : List ℚ) : ℚ := weightedSum l / weightTotal l.length

/-- Numerator of the ordinary-least-squares slope of `l` against the index
sequence `x = 0..n-1`: `n * Σ i*yᵢ - (Σ i) * (Σ yᵢ)`. -/
def slopeNum (l : List ℚ) : ℚ :=
  (l.length : ℚ) * (∑ i in Finset.range l.length, (i : ℚ) * l.getD i 0)
    - (∑ i in Finset.range l.length, (i : ℚ)) * (∑ i in Finset.range l.length, l.getD i 0)

/-- Denominator of the OLS slope: `n * Σ i² - (Σ i)²`. -/
def slopeDen (n : ℕ) : ℚ :=
  (n : ℚ) * (∑ i in Finset.range n, (i : ℚ) ^ 2) - (∑ i in Finset.range n, (i : ℚ)) ^ 2

/-- Trend slope of `_forecast_item`: `np.polyfit(np.arange(n), issued, 1)[0]`
(the least-squares line slope) when `n > 1`, else `0`. -/
def trend_slope (l : List ℚ) : ℚ :=
  if l.length ≤ 1 then 0 else slopeNum l / slopeDen l.length

/-- `forecast_7_days = max(0, wma * 7 + slope * 7)` from `_forecast_item`. -/
def forecast7 (l : List ℚ) : ℚ := max 0 (wma l * 7 + trend_slope l * 7)

/-- `forecast_14_days = max(0, wma * 14 + slope * 14)` from `_forecast_item`. -/
def forecast14 (l : List ℚ) : ℚ := max 0 (wma l * 14 + trend_slope l * 14)

/-- Population variance, the square of `np.std(issued)` (numpy default
`ddof = 0`). -/
def popVariance (l : List ℚ) : ℚ :=
  ((l.map (fun x => (x - listMean l) ^ 2)).sum) / l.length

/-- Sample variance, the square of SQL `STDDEV` (which uses `n - 1`).
For `n ≤ 1` the rational convention `x / 0 = 0` yields `0`, matching the
fact that SQL returns `NULL` there and every `NULL`-guarded comparison
(`stddev_usage > 0`) fails, exactly as `0 > 0` fails here. -/
def sampleVariance (l : List ℚ) : ℚ :=
  ((l.map (fun x => (x - listMean l) ^ 2)).sum) / ((l.length : ℚ) - 1)

/-- Round a rational to the nearest integer, ties to even — Python's
`round` (banker's rounding), which `_forecast_item` applies through
`round(x, 2)`. -/
def roundHalfEven (q : ℚ) : ℤ :=
  let f := ⌊q⌋
  if q - f < 1/2 then f
  else if 1/2 < q - f then f + 1
  else if f % 2 = 0 then f else f + 1

/-- Python `round(q, 2)`. -/
def round2 (q : ℚ) : ℚ := (roundHalfEven (q * 100) : ℚ) / 100

/-- `APP_CONFIG["min_data_points"]` from `config.py`. -/
def min_data_points : ℕ := 3

/-- `APP_CONFIG["forecast_days"]` from `config.py`. -/
def forecast_days : List ℕ := [7, 14]

/-- Banker's rounding over `ℝ`, for the one real-valued field
(`confidence_score`, which involves `np.std`, a square root). -/
noncomputable def roundHalfEvenR (x : ℝ) : ℤ :=
  let f := ⌊x⌋
  if x - f < 1/2 then f
  else if 1/2 < x - f then f + 1
  else if f % 2 = 0 then f else f + 1

/-- Python `round(x, 2)` over `ℝ`. -/
noncomputable def round2R (x : ℝ) : ℝ := (roundHalfEvenR (x * 100) : ℝ) / 100

/-- Confidence score of `_forecast_item`:
`std_dev = np.std(issued)`, `mean_val = np.mean(issued)`,
`cv = std_dev / mean_val if mean_val > 0 else 1`,
`confidence = max(0, min(1, 1 - cv))`.  Real-valued because `np.std`
is the square root of the population variance. -/
noncomputable def confidence_score (l : List ℚ) : ℝ :=
  let std : ℝ := Real.sqrt ((popVariance l : ℚ) : ℝ)
  let cv : ℝ := if 0 < listMean l then std / ((listMean l : ℚ) : ℝ) else 1
  max 0 (min 1 (1 - cv))

/-- The dict returned by `DemandForecaster._forecast_item`.  Dates are
absolute day indices; `forecast_date` is `datetime.now().date()`, i.e. the
day the pipeline runs, passed in explicitly here as `today`. -/
structure ForecastResult where
  location : String
  item : String
  forecast_date : ℕ
  demand_next_7_days : ℚ
  demand_next_14_days : ℚ
  confidence_score : ℝ
  avg_daily_demand : ℚ
  trend_slope : ℚ
  data_points : ℕ

/-- `DemandForecaster._forecast_item(location, item, data)` with the run
date `today` made an explicit argument (the source reads the wall clock:
`forecast_date: datetime.now().date()`). -/
noncomputable def forecast_item (location item : String) (issued : List ℚ) (today : ℕ) :
    ForecastResult :=
  { location := location
    item := item
    forecast_date := today
    demand_next_7_days := round2 (forecast7 issued)
    demand_next_14_days := round2 (forecast14 issued)
    confidence_score := round2R (confidence_score issued)
    avg_daily_demand := round2 (listMean issued)
    trend_slope := round2 (trend_slope issued)
    data_points := issued.length }

/-- One `(location, item)` group of `stock_raw`, with its `issued` values
already sorted by `record_date` (as `calculate_forecasts` sorts them). -/
structure GroupData where
  location : String
  item : String
  issued : List ℚ
deriving DecidableEq

/-- The per-group body of `calculate_forecasts`: a group with fewer than
`min_data_points` rows is skipped (`continue`), otherwise `_forecast_item`
produces its forecast dict (always truthy, so always appended). -/
noncomputable def process_group (today : ℕ) (g : GroupData) : Option ForecastResult :=
  if g.issued.length < min_data_points then none
  else some (forecast_item g.location g.item g.issued today)

/-- The groups `calculate_forecasts` reports as skipped for insufficient
data (the `"⚠️ Skipping {location}-{item}: insufficient data"` branch). -/
def skipped_groups (gs : List GroupData) : List GroupData :=
  gs.filter (fun g => g.issued.length < min_data_points)

/-- `calculate_forecasts` over the grouped input: one forecast per group
that meets the minimum-data threshold, skipped groups dropped. -/
noncomputable def calculate_forecasts (today : ℕ) (gs : List GroupData) :
    List ForecastResult :=
  gs.filterMap (process_group today)

/-- The `anomaly_status` classification of `detect_usage_anomalies`. -/
inductive Status where
  | NORMAL
  | WARNING
  | ANOMALY
deriving DecidableEq

/-- The `CASE` expression of `detect_usage_anomalies` applied to one row:
`'ANOMALY'` if `ABS(issued - avg_usage) > stddev_usage * 2.5`, else
`'WARNING'` if `ABS(issued - avg_usage) > stddev_usage * 2.0`, else
`'NORMAL'`. -/
def classify (value mean stddev : ℚ) : Status :=
  if |value - mean| > stddev * (5/2) then .ANOMALY
  else if |value - mean| > stddev * 2 then .WARNING
  else .NORMAL

/-- The same `CASE` with `stddev_usage` the group's SQL `STDDEV`, stated on
squares: `|v - μ| > √s · k  ↔  (v - μ)² > s · k²` for `s, k ≥ 0`, which
lets the comparison stay inside `ℚ`. -/
def classify_in_group (g : List ℚ) (value : ℚ) : Status :=
  if (value - listMean g) ^ 2 > sampleVariance g * (5/2) ^ 2 then .ANOMALY
  else if (value - listMean g) ^ 2 > sampleVariance g * 2 ^ 2 then .WARNING
  else .NORMAL

/-- One output row of the `usage_stats` query (the columns the claims
mention). -/
structure AnomalyRow where
  issued : ℚ
  avg_usage : ℚ
  anomaly_status : Status
deriving DecidableEq

/-- The rows the `detect_usage_anomalies` SQL produces for one
`(location, item)` group: the `WHERE stddev_usage > 0` filter drops
zero-variance groups entirely (and `n = 1` groups, whose SQL `STDDEV` is
`NULL`). -/
def usage_stats_rows (g : List ℚ) : List AnomalyRow :=
  if 0 < sampleVariance g then
    g.map (fun v => ⟨v, listMean g, classify_in_group g v⟩)
  else []

/-- `detect_usage_anomalies` then keeps only `ANOMALY`/`WARNING` rows
(`results[results['ANOMALY_STATUS'].isin(['ANOMALY', 'WARNING'])]`). -/
def detect_usage_anomalies (g : List ℚ) : List AnomalyRow :=
  (usage_stats_rows g).filter (fun r => r.anomaly_status ≠ Status.NORMAL)

/-- Historical rows of `create_seasonal_forecast` for one `(location, item)`:
`(record_date, issued)` pairs ordered by date, dates as day indices. -/
abbrev Hist := List (ℕ × ℚ)

/-- The `issued` values of the history (the `ISSUED` column). -/
def issuedVals (hist : Hist) : List ℚ := hist.map Prod.snd

/-- `historical.groupby('DAY_OF_WEEK')['ISSUED']` bucket for key `d`:
the key column is the SQL `DAYOFWEEK` of the record date. -/
def bucket (hist : Hist) (d : ℕ) : List ℚ :=
  (hist.filter (fun p => snowflakeDow p.1 = d)).map Prod.snd

/-- `overall_avg = historical['ISSUED'].mean()`. -/
def overall_mean (hist : Hist) : ℚ := listMean (issuedVals hist)

/-- The normalized factor value `seasonal_factors[d] / overall_avg` as a
plain rational (meaningful when `overall_avg ≠ 0`; Lean's `x / 0 = 0`
convention applies otherwise). -/
def factor_val (hist : Hist) (d : ℕ) : ℚ :=
  listMean (bucket hist d) / overall_mean hist

/-- `seasonal_factors.get(day_of_week, 1.0)` after the normalization
`seasonal_factors = seasonal_factors / overall_avg`.  A key absent from
the `groupby` result yields the default `1.0`.  A present key whose
normalization divided by `overall_avg == 0` is a non-finite float
(`0/0 = NaN` or `x/0 = ±inf` in pandas), modelled as `none`. -/
def factor_lookup (hist : Hist) (d : ℕ) : Option ℚ :=
  if bucket hist d = [] then some 1
  else if overall_mean hist = 0 then none
  else some (factor_val hist d)

/-- `base_forecast = historical['ISSUED'].tail(7).mean()`: mean of the
last (at most) seven observations. -/
def base_forecast (hist : Hist) : ℚ :=
  listMean ((issuedVals hist).drop ((issuedVals hist).length - 7))

/-- `last_date = historical['RECORD_DATE'].max()`. -/
def last_date (hist : Hist) : ℕ := (hist.map Prod.fst).foldr max 0

/-- `forecasted_value = base_forecast * seasonal_factor` for one target
date, the factor looked up at `date.dayofweek` (the **pandas** weekday of
the target date); a non-finite factor propagates. -/
def forecast_value (hist : Hist) (target : ℕ) : Option ℚ :=
  (factor_lookup hist (pandasDow target)).map (fun f => base_forecast hist * f)

/-- One row appended by the forecast loop of `create_seasonal_forecast`
(the numeric columns; `none` models a non-finite float). -/
structure SeasonalRow where
  forecast_date : ℕ
  forecasted_usage : Option ℚ
  seasonal_factor : Option ℚ
  base_fc : ℚ
deriving DecidableEq

/-- The forecast loop of `create_seasonal_forecast`: for each of
`forecast_days` dates starting the day after `last_date`, multiply the
base forecast by that date's looked-up seasonal factor. -/
def create_seasonal_forecast (hist : Hist) (fdays : ℕ) : List SeasonalRow :=
  (List.range fdays).map (fun k =>
    let target := last_date hist + 1 + k
    { forecast_date := target
      forecasted_usage := (forecast_value hist target).map round2
      seasonal_factor := (factor_lookup hist (pandasDow target)).map round2
      base_fc := round2 (base_forecast hist) })

/-- Arithmetic mean of the seven day-of-week factor values. -/
def mean_of_factors (hist : Hist) : ℚ :=
  (∑ d in Finset.range 7, factor_val hist d) / 7

/-- One row of `stock_raw` as read by `detect_stockout_patterns`:
`(record_date, closing_stock)`. -/
structure StockDay where
  day : ℕ
  closing : ℚ
deriving DecidableEq

/-- `CASE WHEN closing_stock <= 0 THEN 1 ELSE 0 END as is_stockout`. -/
def is_stockout (r : StockDay) : Bool := r.closing ≤ 0

/-- `SUM(is_stockout)` for one `(location, item)` group. -/
def stockout_days (g : List StockDay) : ℕ := (g.filter is_stockout).length

/-- `SUM(is_stockout) * 100.0 / COUNT(*)`, the unrounded stockout rate the
`CASE` buckets compare. -/
def stockout_rate (g : List StockDay) : ℚ :=
  (stockout_days g : ℚ) * 100 / (g.length : ℚ)

/-- The `pattern_type` buckets of `detect_stockout_patterns`. -/
inductive PatternKind where
  | NO_STOCKOUTS
  | RARE_STOCKOUTS
  | OCCASIONAL_STOCKOUTS
  | FREQUENT_STOCKOUTS
deriving DecidableEq

/-- The `pattern_type` `CASE`: `FREQUENT_STOCKOUTS` if the rate exceeds 20,
else `OCCASIONAL_STOCKOUTS` if it exceeds 10, else `RARE_STOCKOUTS` if any
stockout day exists, else `NO_STOCKOUTS`. -/
def pattern_type (g : List StockDay) : PatternKind :=
  if stockout_rate g > 20 then .FREQUENT_STOCKOUTS
  else if stockout_rate g > 10 then .OCCASIONAL_STOCKOUTS
  else if 0 < stockout_days g then .RARE_STOCKOUTS
  else .NO_STOCKOUTS

/-- One output row of `detect_stockout_patterns` for a group. -/
structure StockoutRow where
  total_days : ℕ
  so_days : ℕ
  rate_pct : ℚ
  last_so_date : Option ℕ
  pattern : PatternKind
deriving DecidableEq

/-- `detect_stockout_patterns` for one `(location, item)` group: the
`HAVING SUM(is_stockout) > 0` clause drops groups without any stockout
day, so they produce no row at all. -/
def detect_stockout_patterns (g : List StockDay) : Option StockoutRow :=
  if 0 < stockout_days g then
    some { total_days := g.length
           so_days := stockout_days g
           rate_pct := round2 (stockout_rate g)
           last_so_date := ((g.filter is_stockout).map StockDay.day).max?
           pattern := pattern_type g }
  else none

/-! ## Helper lemmas -/

/-- Banker's rounding of a non-negative rational is non-negative. -/
theorem roundHalfEven_nonneg {q : ℚ} (hq : 0 ≤ q) : 0 ≤ roundHalfEven q := by
  have hf : (0 : ℤ) ≤ ⌊q⌋ := Int.floor_nonneg.mpr hq
  unfold roundHalfEven
  dsimp only
  split_ifs <;> omega

/-- `round(q, 2)` of a non-negative rational is non-negative. -/
theorem round2_nonneg {q : ℚ} (hq : 0 ≤ q) : 0 ≤ round2 q := by
  have h : (0 : ℤ) ≤ roundHalfEven (q * 100) := roundHalfEven_nonneg (by positivity)
  unfold round2
  positivity

/-- A sum of squared deviations is zero only if every element equals the
center. -/
theorem sum_sq_dev_eq_zero {c : ℚ} : ∀ {l : List ℚ},
    (l.map (fun x => (x - c) ^ 2)).sum = 0 → ∀ x ∈ l, x = c := by
  intro l
  induction l with
  | nil => simp
  | cons a tl ih =>
    intro h x hx
    simp only [List.map_cons, List.sum_cons] at h
    have hrest : 0 ≤ (tl.map (fun x => (x - c) ^ 2)).sum := by
      apply List.sum_nonneg
      intro y hy
      obtain ⟨z, _, rfl⟩ := List.mem_map.mp hy
      positivity
    have ha : (a - c) ^ 2 = 0 := by nlinarith [sq_nonneg (a - c)]
    rcases List.mem_cons.mp hx with rfl | hx'
    · have := pow_eq_zero_iff (n := 2) (by norm_num) |>.mp ha
      linarith [sub_eq_zero.mp this]
    · exact ih (by linarith) x hx'

/-- If the sample variance of a list vanishes, every element equals the
mean (this is the sense in which `stddev == 0` forces `value == mean` for
a value drawn from the same group). -/
theorem sampleVariance_eq_zero_forces_mean {l : List ℚ}
    (h : sampleVariance l = 0) : ∀ x ∈ l, x = listMean l := by
  match l with
  | [] => simp
  | [a] =>
    intro x hx
    simp only [List.mem_singleton] at hx
    subst hx
    simp [listMean]
  | a :: b :: tl =>
    have hd : ((a :: b :: tl).length : ℚ) - 1 ≠ 0 := by
      have h2 : (2 : ℚ) ≤ ((a :: b :: tl).length : ℚ) := by
        have : 2 ≤ (a :: b :: tl).length := by simp
        exact_mod_cast this
      linarith
    unfold sampleVariance at h
    rcases div_eq_zero_iff.mp h with h' | h'
    · exact sum_sq_dev_eq_zero h'
    · exact absurd h' hd

/-- Each run of `calculate_forecasts` partitions the groups: forecasts
produced plus groups skipped equals groups seen. -/
theorem length_forecasts_add_skipped (t : ℕ) (gs : List GroupData) :
    (calculate_forecasts t gs).length + (skipped_groups gs).length = gs.length := by
  induction gs with
  | nil => simp [calculate_forecasts, skipped_groups]
  | cons g tl ih =>
    by_cases hc : g.issued.length < min_data_points
    · simp [calculate_forecasts, skipped_groups, List.filterMap_cons, List.filter_cons,
        process_group, hc] at ih ⊢
      omega
    · simp [calculate_forecasts, skipped_groups, List.filterMap_cons, List.filter_cons,
        process_group, hc] at ih ⊢
      omega

/-! ## Claim theorems -/

/-- C1 (amended): for every issued sequence, each horizon `h ∈ {7, 14}`
yields `forecast = max(0, wma*h + slope*h)`, hence every
`demand_next_k_days` in a `ForecastResult` is `≥ 0`, even when the slope
is negative and the unclamped projection is negative, as for `[10, 5, 0]`
whose 7-day clamp yields `0`.  (The spec's example `[100, 80, 60, 40, 20]`
has a positive unclamped projection; see the counterexample.) -/
theorem C1_forecast_clamped_nonneg :
    (∀ l : List ℚ,
      forecast7 l = max 0 (wma l * 7 + trend_slope l * 7) ∧
      forecast14 l = max 0 (wma l * 14 + trend_slope l * 14) ∧
      0 ≤ forecast7 l ∧ 0 ≤ forecast14 l) ∧
    (∀ (loc it : String) (l : List ℚ) (t : ℕ),
      0 ≤ (forecast_item loc it l t).demand_next_7_days ∧
      0 ≤ (forecast_item loc it l t).demand_next_14_days) ∧
    trend_slope [10, 5, 0] < 0 ∧
    wma [10, 5, 0] * 7 + trend_slope [10, 5, 0] * 7 < 0 ∧
    forecast7 [10, 5, 0] = 0 := by
  refine ⟨fun l => ⟨rfl, rfl, le_max_left _ _, le_max_left _ _⟩,
    fun loc it l t => ⟨round2_nonneg (le_max_left _ _), round2_nonneg (le_max_left _ _)⟩,
    ?_, ?_, ?_⟩ <;>
  norm_num [forecast7, wma, weightedSum, weightTotal, trend_slope, slopeNum, slopeDen,
    Finset.sum_range_succ]

/-- C1 (counterexample): the spec's example is wrong on the code — for the
sequence `[100, 80, 60, 40, 20]` the unclamped projection
`wma*7 + slope*7 = 560/3` is positive, so the 7-day forecast is `560/3`
(stored as `186.67` after rounding), not `0`. -/
theorem C1_example_counterexample :
    forecast7 [100, 80, 60, 40, 20] = 560 / 3 ∧ (560 / 3 : ℚ) ≠ 0 ∧
    (forecast_item "Chennai" "Paracetamol" [100, 80, 60, 40, 20] 0).demand_next_7_days
      = 18667 / 100 := by
  refine ⟨?_, by norm_num, ?_⟩ <;>
  norm_num [forecast_item, forecast7, wma, weightedSum, weightTotal, trend_slope,
    slopeNum, slopeDen, Finset.sum_range_succ, round2, roundHalfEven]

/-- C10: for every sequence meeting the minimum-data threshold, the
unrounded 14-day forecast is exactly twice the unrounded 7-day forecast,
since `max(0, c*14) = 2 * max(0, c*7)`. -/
theorem C10_horizon_rescaling (l : List ℚ) (h : min_data_points ≤ l.length) :
    forecast14 l = 2 * forecast7 l := by
  unfold forecast14 forecast7
  rcases le_total (wma l * 7 + trend_slope l * 7) 0 with h7 | h7
  · rw [max_eq_left (by linarith), max_eq_left h7]
    ring
  · rw [max_eq_right (by linarith), max_eq_right h7]
    ring

/-- C10 witness: the theorem applied to the concrete sequence `[1, 2, 3]`. -/
theorem C10_horizon_rescaling_witness :
    min_data_points ≤ ([1, 2, 3] : List ℚ).length ∧
    forecast14 [1, 2, 3] = 2 * forecast7 [1, 2, 3] :=
  ⟨by decide, C10_horizon_rescaling [1, 2, 3] (by decide)⟩

/-- C9 (amended): with the wall clock made explicit, every field of
`_forecast_item`'s result other than `forecast_date` is a function of the
input sequence alone (two runs with identical input agree on it), while
`forecast_date` equals the run date. -/
theorem C9_determinism_except_date :
    ∀ (loc it : String) (l : List ℚ) (d₁ d₂ : ℕ),
      (forecast_item loc it l d₁).location = (forecast_item loc it l d₂).location ∧
      (forecast_item loc it l d₁).item = (forecast_item loc it l d₂).item ∧
      (forecast_item loc it l d₁).demand_next_7_days
        = (forecast_item loc it l d₂).demand_next_7_days ∧
      (forecast_item loc it l d₁).demand_next_14_days
        = (forecast_item loc it l d₂).demand_next_14_days ∧
      (forecast_item loc it l d₁).confidence_score
        = (forecast_item loc it l d₂).confidence_score ∧
      (forecast_item loc it l d₁).avg_daily_demand
        = (forecast_item loc it l d₂).avg_daily_demand ∧
      (forecast_item loc it l d₁).trend_slope = (forecast_item loc it l d₂).trend_slope ∧
      (forecast_item loc it l d₁).data_points = (forecast_item loc it l d₂).data_points ∧
      (forecast_item loc it l d₁).forecast_date = d₁ :=
  fun _ _ _ _ _ => ⟨rfl, rfl, rfl, rfl, rfl, rfl, rfl, rfl, rfl⟩

/-- C9 (counterexample): the output is not bit-identical across two runs
with the identical input sequence — `forecast_date` is
`datetime.now().date()`, so runs on different days differ. -/
theorem C9_run_date_counterexample :
    forecast_item "A" "B" [1, 2, 3] 0 ≠ forecast_item "A" "B" [1, 2, 3] 1 := by
  intro h
  have h2 := congrArg ForecastResult.forecast_date h
  simp [forecast_item] at h2

/-- C2: a group with fewer than `min_data_points` rows yields no
`ForecastResult` and is reported skipped; a group meeting the threshold
yields exactly the one forecast of `_forecast_item`; skips do not disturb
other groups (forecasts + skips = groups); and at `min_data_points = 3` a
length-2 sequence is skipped while a length-3 sequence yields a result. -/
theorem C2_min_data_threshold (t : ℕ) (g : GroupData) (gs : List GroupData) :
    (g.issued.length < min_data_points → process_group t g = none) ∧
    (min_data_points ≤ g.issued.length →
      process_group t g = some (forecast_item g.location g.item g.issued t)) ∧
    (g ∈ skipped_groups gs ↔ g ∈ gs ∧ g.issued.length < min_data_points) ∧
    (calculate_forecasts t gs).length + (skipped_groups gs).length = gs.length ∧
    process_group t ⟨"L", "I", [1, 2]⟩ = none ∧
    (process_group t ⟨"L", "I", [1, 2, 3]⟩).isSome = true := by
  refine ⟨fun h => by simp [process_group, h],
    fun h => by simp [process_group, Nat.not_lt.mpr h],
    ?_, length_forecasts_add_skipped t gs, ?_, ?_⟩
  · simp [skipped_groups, List.mem_filter]
  · simp [process_group, min_data_points]
  · simp [process_group, min_data_points]

/-- C2 witness: the theorem applied at the boundary instances themselves. -/
theorem C2_min_data_threshold_witness :
    min_data_points ≤ ([1, 2, 3] : List ℚ).length ∧
    process_group 0 ⟨"L", "I", [1, 2, 3]⟩
      = some (forecast_item "L" "I" [1, 2, 3] 0) ∧
    process_group 0 ⟨"L", "I", [1, 2]⟩ = none :=
  ⟨by decide,
    (C2_min_data_threshold 0 ⟨"L", "I", [1, 2, 3]⟩ []).2.1 (by decide),
    (C2_min_data_threshold 0 ⟨"L", "I", [1, 2]⟩ []).1 (by decide)⟩

/-- C3: the usage-anomaly classification is `ANOMALY` iff
`|value - mean| > stddev * 2.5`, `WARNING` iff not that but
`|value - mean| > stddev * 2.0`, else `NORMAL`; and for a data point of a
zero-variance group (`stddev == 0` forces `value == mean` there) the
classification is `NORMAL`, the group being excluded from the query output
entirely by `WHERE stddev_usage > 0`. -/
theorem C3_anomaly_classification (v m s : ℚ) (g : List ℚ)
    (hvar : sampleVariance g = 0) (hv : v ∈ g) :
    (classify v m s = Status.ANOMALY ↔ |v - m| > s * (5/2)) ∧
    (classify v m s = Status.WARNING ↔ |v - m| ≤ s * (5/2) ∧ |v - m| > s * 2) ∧
    (classify v m s = Status.NORMAL ↔ |v - m| ≤ s * (5/2) ∧ |v - m| ≤ s * 2) ∧
    v = listMean g ∧
    classify v (listMean g) 0 = Status.NORMAL ∧
    usage_stats_rows g = [] ∧
    detect_usage_anomalies g = [] := by
  have hmean : v = listMean g := sampleVariance_eq_zero_forces_mean hvar v hv
  have hrows : usage_stats_rows g = [] := by
    simp [usage_stats_rows, hvar]
  refine ⟨?_, ?_, ?_, hmean, ?_, hrows, ?_⟩
  · unfold classify
    split_ifs with h1 h2 <;> simp [h1]
  · unfold classify
    split_ifs with h1 h2 <;> simp_all [not_lt]
  · unfold classify
    split_ifs with h1 h2 <;> simp_all [not_lt]
  · simp [classify, hmean]
  · simp [detect_usage_anomalies, hrows]

/-- C3 witness: the theorem applied to the constant group `[5, 5]` and the
point `(value, mean, stddev) = (5, 0, 1)`. -/
theorem C3_anomaly_classification_witness :
    sampleVariance [(5 : ℚ), 5] = 0 ∧ (5 : ℚ) ∈ [(5 : ℚ), 5] ∧
    classify 5 0 1 = Status.ANOMALY ∧ (5 : ℚ) = listMean [(5 : ℚ), 5] ∧
    detect_usage_anomalies [(5 : ℚ), 5] = [] := by
  have hvar : sampleVariance [(5 : ℚ), 5] = 0 := by
    norm_num [sampleVariance, listMean, List.sum_cons, List.sum_nil]
  have hv : (5 : ℚ) ∈ [(5 : ℚ), 5] := by norm_num
  have h := C3_anomaly_classification 5 0 1 [(5 : ℚ), 5] hvar hv
  exact ⟨hvar, hv, h.1.mpr (by norm_num), h.2.2.2.1, h.2.2.2.2.2.2⟩

/-- Indexed re-reading of a list sum. -/
theorem sum_getD (l : List ℚ) :
    ∑ i in Finset.range l.length, l.getD i 0 = l.sum := by
  induction l with
  | nil => simp
  | cons a tl ih =>
    rw [List.length_cons, Finset.sum_range_succ']
    simp only [List.getD_cons_succ, List.getD_cons_zero, List.sum_cons, ih]
    ring

/-- Each summand of the Chebyshev double sum is non-negative when the
sequence increases with its index. -/
theorem cheb_term_nonneg {n : ℕ} {x : ℕ → ℚ}
    (hmono : ∀ i j, i < j → j < n → x i < x j) :
    ∀ i j, i < n → j < n → 0 ≤ ((i : ℚ) - (j : ℚ)) * (x i - x j) := by
  intro i j hi hj
  rcases lt_trichotomy i j with h | rfl | h
  · have hx := hmono i j h hj
    have hij : (i : ℚ) < (j : ℚ) := by exact_mod_cast h
    nlinarith
  · simp
  · have hx := hmono j i h hi
    have hij : (j : ℚ) < (i : ℚ) := by exact_mod_cast h
    nlinarith

/-- Expansion of the Chebyshev double sum. -/
theorem cheb_double_sum (n : ℕ) (x : ℕ → ℚ) :
    ∑ i in Finset.range n, ∑ j in Finset.range n, ((i : ℚ) - (j : ℚ)) * (x i - x j)
      = 2 * ((n : ℚ) * (∑ i in Finset.range n, (i : ℚ) * x i)
          - (∑ i in Finset.range n, (i : ℚ)) * (∑ i in Finset.range n, x i)) := by
  have inner : ∀ i ∈ Finset.range n,
      ∑ j in Finset.range n, ((i : ℚ) - (j : ℚ)) * (x i - x j)
        = (n : ℚ) * ((i : ℚ) * x i) - (i : ℚ) * (∑ j in Finset.range n, x j)
          - (∑ j in Finset.range n, (j : ℚ)) * x i
          + ∑ j in Finset.range n, (j : ℚ) * x j := by
    intro i _
    calc ∑ j in Finset.range n, ((i : ℚ) - (j : ℚ)) * (x i - x j)
        = ∑ j in Finset.range n,
            ((i : ℚ) * x i - (i : ℚ) * x j - ((j : ℚ) * x i - (j : ℚ) * x j)) :=
          Finset.sum_congr rfl fun j _ => by ring
      _ = ∑ _j in Finset.range n, ((i : ℚ) * x i)
            - ∑ j in Finset.range n, ((i : ℚ) * x j)
            - (∑ j in Finset.range n, ((j : ℚ) * x i)
              - ∑ j in Finset.range n, ((j : ℚ) * x j)) := by
          simp only [Finset.sum_sub_distrib]
      _ = (n : ℚ) * ((i : ℚ) * x i) - (i : ℚ) * (∑ j in Finset.range n, x j)
            - (∑ j in Finset.range n, (j : ℚ)) * x i
            + ∑ j in Finset.range n, (j : ℚ) * x j := by
          rw [Finset.sum_const, Finset.card_range, nsmul_eq_mul, ← Finset.mul_sum,
            ← Finset.sum_mul]
          ring
  rw [Finset.sum_congr rfl inner]
  calc ∑ i in Finset.range n,
        ((n : ℚ) * ((i : ℚ) * x i) - (i : ℚ) * (∑ j in Finset.range n, x j)
          - (∑ j in Finset.range n, (j : ℚ)) * x i
          + ∑ j in Finset.range n, (j : ℚ) * x j)
      = ∑ i in Finset.range n, ((n : ℚ) * ((i : ℚ) * x i))
        - ∑ i in Finset.range n, ((i : ℚ) * (∑ j in Finset.range n, x j))
        - ∑ i in Finset.range n, ((∑ j in Finset.range n, (j : ℚ)) * x i)
        + ∑ _i in Finset.range n, (∑ j in Finset.range n, (j : ℚ) * x j) := by
        simp only [Finset.sum_sub_distrib, Finset.sum_add_distrib]
    _ = (n : ℚ) * ∑ i in Finset.range n, ((i : ℚ) * x i)
        - (∑ i in Finset.range n, (i : ℚ)) * (∑ j in Finset.range n, x j)
        - (∑ j in Finset.range n, (j : ℚ)) * ∑ i in Finset.range n, x i
        + (n : ℚ) * ∑ j in Finset.range n, (j : ℚ) * x j := by
        rw [← Finset.mul_sum, ← Finset.sum_mul, ← Finset.mul_sum, Finset.sum_const,
          Finset.card_range, nsmul_eq_mul]
    _ = 2 * ((n : ℚ) * (∑ i in Finset.range n, (i : ℚ) * x i)
          - (∑ i in Finset.range n, (i : ℚ)) * (∑ i in Finset.range n, x i)) := by
        ring

/-- Strict Chebyshev sum inequality for the weights `1..n` against a
strictly increasing sequence, `n ≥ 2`. -/
theorem cheb_strict (n : ℕ) (x : ℕ → ℚ) (hn : 2 ≤ n)
    (hmono : ∀ i j, i < j → j < n → x i < x j) :
    (∑ i in Finset.range n, x i) * (∑ i in Finset.range n, ((i : ℚ) + 1))
      < (n : ℚ) * ∑ i in Finset.range n, ((i : ℚ) + 1) * x i := by
  have hterm := cheb_term_nonneg hmono
  have hpos : 0 < ∑ i in Finset.range n, ∑ j in Finset.range n,
      ((i : ℚ) - (j : ℚ)) * (x i - x j) := by
    apply Finset.sum_pos'
    · intro i hi
      exact Finset.sum_nonneg fun j hj =>
        hterm i j (Finset.mem_range.mp hi) (Finset.mem_range.mp hj)
    · refine ⟨0, Finset.mem_range.mpr (by omega), Finset.sum_pos' ?_ ?_⟩
      · intro j hj
        exact hterm 0 j (by omega) (Finset.mem_range.mp hj)
      · refine ⟨1, Finset.mem_range.mpr (by omega), ?_⟩
        have hx := hmono 0 1 (by omega) (by omega)
        push_cast
        nlinarith
  rw [cheb_double_sum n x] at hpos
  have hexp : ∑ i in Finset.range n, ((i : ℚ) + 1) * x i
      = (∑ i in Finset.range n, (i : ℚ) * x i) + ∑ i in Finset.range n, x i := by
    rw [← Finset.sum_add_distrib]
    exact Finset.sum_congr rfl fun i _ => by ring
  have hw : ∑ i in Finset.range n, ((i : ℚ) + 1)
      = (∑ i in Finset.range n, (i : ℚ)) + n := by
    rw [Finset.sum_add_distrib, Finset.sum_const, Finset.card_range, nsmul_eq_mul, mul_one]
  rw [hexp, hw]
  nlinarith [hpos]

/-- C4 (amended): for every strictly increasing sequence of non-negative
numbers with at least two elements, the weighted moving average (weights
`1..n`, most recent element weight `n`) strictly exceeds the simple moving
average.  (A one-element sequence is vacuously strictly increasing but has
`wma = sma`; see the counterexample.) -/
theorem C4_wma_exceeds_sma (l : List ℚ) (hlen : 2 ≤ l.length)
    (hinc : l.Pairwise (· < ·)) (hnn : ∀ x ∈ l, 0 ≤ x) :
    wma l > listMean l := by
  have h2 : (2 : ℚ) ≤ (l.length : ℚ) := by exact_mod_cast hlen
  have hn0 : (0 : ℚ) < (l.length : ℚ) := by linarith
  have hW : (0 : ℚ) < ∑ i in Finset.range l.length, ((i : ℚ) + 1) :=
    Finset.sum_pos (fun i _ => by positivity) (Finset.nonempty_range_iff.mpr (by omega))
  have hmono : ∀ i j, i < j → j < l.length → l.getD i 0 < l.getD j 0 := by
    intro i j hij hj
    have hi : i < l.length := hij.trans hj
    rw [List.getD_eq_getElem l 0 hi, List.getD_eq_getElem l 0 hj]
    exact List.pairwise_iff_getElem.mp hinc i j hi hj hij
  have hcheb := cheb_strict l.length (fun i => l.getD i 0) hlen hmono
  rw [gt_iff_lt, listMean, ← sum_getD l, wma, weightedSum, weightTotal,
    div_lt_div_iff hn0 hW]
  calc (∑ i in Finset.range l.length, l.getD i 0)
        * ∑ i in Finset.range l.length, ((i : ℚ) + 1)
      < (l.length : ℚ) * ∑ i in Finset.range l.length, ((i : ℚ) + 1) * l.getD i 0 := hcheb
    _ = (∑ i in Finset.range l.length, ((i : ℚ) + 1) * l.getD i 0) * (l.length : ℚ) := by
        ring

/-- C4 witness: the theorem applied to the concrete sequence `[1, 2]`. -/
theorem C4_wma_exceeds_sma_witness :
    2 ≤ ([1, 2] : List ℚ).length ∧ wma [1, 2] > listMean [1, 2] :=
  ⟨by decide,
    C4_wma_exceeds_sma [1, 2] (by decide)
      (by norm_num) (by norm_num)⟩

/-- C4 (counterexample): the one-element sequence `[5]` is strictly
increasing (vacuously) and non-negative, yet its weighted moving average
equals its simple moving average, so the claimed strict inequality fails. -/
theorem C4_singleton_counterexample :
    List.Pairwise (· < ·) [(5 : ℚ)] ∧ (0 : ℚ) ≤ 5 ∧
    wma [(5 : ℚ)] = 5 ∧ listMean [(5 : ℚ)] = 5 ∧ ¬ (5 : ℚ) > 5 := by
  refine ⟨by simp, by norm_num, ?_, ?_, by norm_num⟩ <;>
  norm_num [wma, listMean, weightedSum, weightTotal, Finset.sum_range_succ]

/-- C5 (amended): the stored day-of-week factor is
`mean(values on weekday d) / mean(all values)` for weekdays present in the
history when the overall mean is non-zero; a weekday absent from the
history looks up as the neutral default `1.0`; but when
`mean(all values) == 0` the code performs the division anyway, so present
weekdays carry a non-finite value (pandas `0/0 = NaN` / `x/0 = ±inf`),
not a `1.0` default. -/
theorem C5_seasonal_factor_division (hist : Hist) (d : ℕ) :
    (bucket hist d ≠ [] → overall_mean hist ≠ 0 →
      factor_lookup hist d = some (listMean (bucket hist d) / overall_mean hist)) ∧
    (bucket hist d = [] → factor_lookup hist d = some 1) ∧
    (bucket hist d ≠ [] → overall_mean hist = 0 → factor_lookup hist d = none) := by
  refine ⟨fun h1 h2 => ?_, fun h1 => ?_, fun h1 h2 => ?_⟩
  · simp [factor_lookup, factor_val, h1, h2]
  · simp [factor_lookup, h1]
  · simp [factor_lookup, h1, h2]

/-- C5 witness: the theorem applied to the two-day history
`[(0, 2), (1, 4)]` at the Monday key `1`. -/
theorem C5_seasonal_factor_division_witness :
    bucket [(0, 2), (1, 4)] 1 ≠ [] ∧ overall_mean [(0, 2), (1, 4)] ≠ 0 ∧
    factor_lookup [(0, 2), (1, 4)] 1
      = some (listMean (bucket [(0, 2), (1, 4)] 1) / overall_mean [(0, 2), (1, 4)]) := by
  have hb : bucket [(0, 2), (1, 4)] 1 ≠ [] := by
    simp [bucket, snowflakeDow, List.filter]
  have ho : overall_mean [(0, 2), (1, 4)] ≠ 0 := by
    norm_num [overall_mean, issuedVals, listMean]
  exact ⟨hb, ho, (C5_seasonal_factor_division [(0, 2), (1, 4)] 1).1 hb ho⟩

/-- C5 (counterexample): for an all-zero one-week history (days 7–13, a
Monday-to-Sunday week) the overall mean is `0`, Monday (key `1`) is
present, and its looked-up factor is the non-finite division result, not
the claimed default `1.0`. -/
theorem C5_zero_mean_counterexample :
    overall_mean [(7, 0), (8, 0), (9, 0), (10, 0), (11, 0), (12, 0), (13, 0)] = 0 ∧
    bucket [(7, 0), (8, 0), (9, 0), (10, 0), (11, 0), (12, 0), (13, 0)] 1 ≠ [] ∧
    factor_lookup [(7, 0), (8, 0), (9, 0), (10, 0), (11, 0), (12, 0), (13, 0)] 1 = none ∧
    factor_lookup [(7, 0), (8, 0), (9, 0), (10, 0), (11, 0), (12, 0), (13, 0)] 1 ≠ some 1 := by
  have ho : overall_mean
      [((7 : ℕ), (0 : ℚ)), (8, 0), (9, 0), (10, 0), (11, 0), (12, 0), (13, 0)] = 0 := by
    norm_num [overall_mean, issuedVals, listMean]
  have hb : bucket
      [((7 : ℕ), (0 : ℚ)), (8, 0), (9, 0), (10, 0), (11, 0), (12, 0), (13, 0)] 1 ≠ [] := by
    simp [bucket, snowflakeDow, List.filter]
  have hl : factor_lookup
      [((7 : ℕ), (0 : ℚ)), (8, 0), (9, 0), (10, 0), (11, 0), (12, 0), (13, 0)] 1 = none := by
    simp [factor_lookup, hb, ho]
  exact ⟨ho, hb, hl, by simp [hl]⟩

/-- C7 (amended): over a group's full history with
`stockout_rate = stockout_days / total_days * 100` and a stockout a day
whose closing stock is `≤ 0`: a rate above 20 classifies
`FREQUENT_STOCKOUTS`, a rate in `(10, 20]` classifies
`OCCASIONAL_STOCKOUTS`, a positive rate `≤ 10` classifies
`RARE_STOCKOUTS`; but a group with zero stockout days (rate 0) is dropped
by `HAVING SUM(is_stockout) > 0` and produces no row — `NO_STOCKOUTS` is
never emitted. -/
theorem C7_stockout_classification (g : List StockDay) (hne : g ≠ []) :
    (stockout_days g = 0 → stockout_rate g = 0 ∧ detect_stockout_patterns g = none) ∧
    (0 < stockout_days g → 0 < stockout_rate g ∧
      detect_stockout_patterns g = some
        { total_days := g.length
          so_days := stockout_days g
          rate_pct := round2 (stockout_rate g)
          last_so_date := ((g.filter is_stockout).map StockDay.day).max?
          pattern := pattern_type g }) ∧
    (stockout_rate g > 20 → pattern_type g = PatternKind.FREQUENT_STOCKOUTS) ∧
    (10 < stockout_rate g → stockout_rate g ≤ 20 →
      pattern_type g = PatternKind.OCCASIONAL_STOCKOUTS) ∧
    (0 < stockout_rate g → stockout_rate g ≤ 10 →
      pattern_type g = PatternKind.RARE_STOCKOUTS) := by
  have hn : 0 < g.length := List.length_pos.mpr hne
  refine ⟨fun h0 => ⟨by simp [stockout_rate, h0], by simp [detect_stockout_patterns, h0]⟩,
    fun hsd => ⟨?_, by simp [detect_stockout_patterns, hsd]⟩, ?_, ?_, ?_⟩
  · have h1 : (0 : ℚ) < (stockout_days g : ℚ) := by exact_mod_cast hsd
    have h2 : (0 : ℚ) < (g.length : ℚ) := by exact_mod_cast hn
    exact div_pos (by nlinarith) h2
  · intro h20
    simp [pattern_type, h20]
  · intro h10 h20
    have h20' : ¬ stockout_rate g > 20 := by linarith
    simp [pattern_type, h20', h10]
  · intro hr h10
    have hsd : 0 < stockout_days g := by
      rcases Nat.eq_zero_or_pos (stockout_days g) with h | h
      · rw [stockout_rate, h] at hr
        norm_num at hr
      · exact h
    have h20' : ¬ stockout_rate g > 20 := by linarith
    have h10' : ¬ stockout_rate g > 10 := by linarith
    simp [pattern_type, h20', h10', hsd]

/-- C7 witness: the theorem applied to the one-day group with closing
stock `0` (a stockout, rate 100, hence `FREQUENT_STOCKOUTS`). -/
theorem C7_stockout_classification_witness :
    ([StockDay.mk 0 0] : List StockDay) ≠ [] ∧
    stockout_rate [StockDay.mk 0 0] > 20 ∧
    pattern_type [StockDay.mk 0 0] = PatternKind.FREQUENT_STOCKOUTS := by
  have hne : ([StockDay.mk 0 0] : List StockDay) ≠ [] := by simp
  have hrate : stockout_rate [StockDay.mk 0 0] > 20 := by
    norm_num [stockout_rate, stockout_days, is_stockout, List.filter]
  exact ⟨hne, hrate, (C7_stockout_classification [StockDay.mk 0 0] hne).2.2.1 hrate⟩

/-- C7 (counterexample): a one-day group with closing stock `5` has zero
stockout days and rate `0`, yet `detect_stockout_patterns` yields no row
at all (the `HAVING` filter), rather than a `NO_STOCKOUTS`
classification. -/
theorem C7_no_stockouts_counterexample :
    stockout_days [StockDay.mk 0 5] = 0 ∧
    stockout_rate [StockDay.mk 0 5] = 0 ∧
    detect_stockout_patterns [StockDay.mk 0 5] = none := by
  have h0 : stockout_days [StockDay.mk 0 5] = 0 := by
    norm_num [stockout_days, is_stockout, List.filter]
  exact ⟨h0, by simp [stockout_rate, h0], by simp [detect_stockout_patterns, h0]⟩

/-- Unfolding a weekday bucket at a cons cell. -/
theorem bucket_cons (p : ℕ × ℚ) (t : Hist) (d : ℕ) :
    bucket (p :: t) d
      = if snowflakeDow p.1 = d then p.2 :: bucket t d else bucket t d := by
  by_cases h : snowflakeDow p.1 = d <;> simp [bucket, List.filter_cons, h]

/-- The seven weekday buckets partition the history's values (sums). -/
theorem bucket_sum_partition (hist : Hist) :
    ∑ d in Finset.range 7, (bucket hist d).sum = (issuedVals hist).sum := by
  induction hist with
  | nil => simp [bucket, issuedVals]
  | cons p t ih =>
    have hdow : snowflakeDow p.1 ∈ Finset.range 7 :=
      Finset.mem_range.mpr (Nat.mod_lt _ (by omega))
    calc ∑ d in Finset.range 7, (bucket (p :: t) d).sum
        = ∑ d in Finset.range 7,
            ((if snowflakeDow p.1 = d then p.2 else 0) + (bucket t d).sum) := by
          refine Finset.sum_congr rfl fun d _ => ?_
          rw [bucket_cons]
          split_ifs <;> simp
      _ = p.2 + ∑ d in Finset.range 7, (bucket t d).sum := by
          rw [Finset.sum_add_distrib, Finset.sum_ite_eq, if_pos hdow]
      _ = (issuedVals (p :: t)).sum := by simp [issuedVals, ih]

/-- The seven weekday buckets partition the history's values (lengths). -/
theorem bucket_length_partition (hist : Hist) :
    ∑ d in Finset.range 7, (bucket hist d).length = hist.length := by
  induction hist with
  | nil => simp [bucket]
  | cons p t ih =>
    have hdow : snowflakeDow p.1 ∈ Finset.range 7 :=
      Finset.mem_range.mpr (Nat.mod_lt _ (by omega))
    calc ∑ d in Finset.range 7, (bucket (p :: t) d).length
        = ∑ d in Finset.range 7,
            ((if snowflakeDow p.1 = d then 1 else 0) + (bucket t d).length) := by
          refine Finset.sum_congr rfl fun d _ => ?_
          rw [bucket_cons]
          split_ifs <;> simp <;> omega
      _ = 1 + ∑ d in Finset.range 7, (bucket t d).length := by
          rw [Finset.sum_add_distrib, Finset.sum_ite_eq, if_pos hdow]
      _ = (p :: t).length := by simp [ih, Nat.add_comm]

/-- C8 (amended): when every one of the seven weekdays has the same
positive number `c` of observations (whole-week data) and the overall
mean is non-zero, the mean of the seven day-of-week seasonal factors is
exactly `1`.  (Merely having data on all seven weekdays is not enough;
see the counterexample with unequal weekday counts.) -/
theorem C8_factor_normalization (hist : Hist) (c : ℕ) (hc : 0 < c)
    (hcount : ∀ d, d < 7 → (bucket hist d).length = c)
    (hsum : (issuedVals hist).sum ≠ 0) :
    mean_of_factors hist = 1 := by
  have hc' : ((c : ℚ)) ≠ 0 := by positivity
  have hlen : hist.length = 7 * c := by
    have h := bucket_length_partition hist
    rw [Finset.sum_congr rfl (fun d hd => hcount d (Finset.mem_range.mp hd)),
      Finset.sum_const, Finset.card_range, smul_eq_mul] at h
    omega
  have hmean : overall_mean hist = (issuedVals hist).sum / ((7 : ℚ) * c) := by
    unfold overall_mean listMean
    rw [show (issuedVals hist).length = hist.length from by simp [issuedVals], hlen]
    push_cast
    ring_nf
  have hfac : ∀ d ∈ Finset.range 7,
      factor_val hist d = (bucket hist d).sum * 7 / (issuedVals hist).sum := by
    intro d hd
    unfold factor_val listMean
    rw [hcount d (Finset.mem_range.mp hd), hmean]
    field_simp
    ring
  unfold mean_of_factors
  rw [Finset.sum_congr rfl hfac]
  have hsplit : ∑ d in Finset.range 7, ((bucket hist d).sum * 7 / (issuedVals hist).sum)
      = (∑ d in Finset.range 7, (bucket hist d).sum) * 7 / (issuedVals hist).sum := by
    rw [← Finset.sum_div, ← Finset.sum_mul]
  rw [hsplit, bucket_sum_partition hist]
  field_simp

/-- C8 witness: the theorem applied to one constant Monday-to-Sunday week
(`c = 1`, all values `1`). -/
theorem C8_factor_normalization_witness :
    (0 < 1) ∧
    (issuedVals [(7, 1), (8, 1), (9, 1), (10, 1), (11, 1), (12, 1), (13, 1)]).sum ≠ 0 ∧
    mean_of_factors [(7, 1), (8, 1), (9, 1), (10, 1), (11, 1), (12, 1), (13, 1)] = 1 := by
  have hcount : ∀ d, d < 7 →
      (bucket [((7 : ℕ), (1 : ℚ)), (8, 1), (9, 1), (10, 1), (11, 1), (12, 1), (13, 1)]
        d).length = 1 := by
    decide
  have hsum : (issuedVals
      [((7 : ℕ), (1 : ℚ)), (8, 1), (9, 1), (10, 1), (11, 1), (12, 1), (13, 1)]).sum ≠ 0 := by
    norm_num [issuedVals]
  exact ⟨Nat.one_pos, hsum,
    C8_factor_normalization _ 1 Nat.one_pos hcount hsum⟩

/-- C8 (counterexample): a history covering all seven weekdays but with
two Mondays of value `0` and one of each other weekday of value `7` has
factor mean `8/7 ≠ 1`, refuting the claim for mere
all-weekdays-present data. -/
theorem C8_unequal_counts_counterexample :
    ((List.range 7).all (fun d =>
      !(bucket [(7, 0), (14, 0), (8, 7), (9, 7), (10, 7), (11, 7), (12, 7), (13, 7)]
          d).isEmpty)) = true ∧
    mean_of_factors [(7, 0), (14, 0), (8, 7), (9, 7), (10, 7), (11, 7), (12, 7), (13, 7)]
      = 8 / 7 ∧
    mean_of_factors [(7, 0), (14, 0), (8, 7), (9, 7), (10, 7), (11, 7), (12, 7), (13, 7)]
      ≠ 1 := by
  refine ⟨by decide, ?_, ?_⟩
  · norm_num [mean_of_factors, factor_val, bucket, overall_mean, issuedVals, listMean,
      snowflakeDow, Finset.sum_range_succ, List.filter]
  · norm_num [mean_of_factors, factor_val, bucket, overall_mean, issuedVals, listMean,
      snowflakeDow, Finset.sum_range_succ, List.filter]

/-- C6: the code looks seasonal factors up under the wrong weekday
convention.  For the history days 0–6 (Monday–Sunday) with `issued = 7`
on Monday–Saturday and `14` on Sunday, the factors are keyed by Snowflake
`DAYOFWEEK` (Sunday = 0), but the target date `7` — a Monday — is looked
up at pandas `dayofweek` `0`, fetching **Sunday's** factor `7/4` and
forecasting `14`; the factor computed for Monday under the computation's
own convention (key `snowflakeDow 7 = 1`) is `7/8`, which would forecast
`7`. -/
theorem C6_weekday_convention_mismatch :
    create_seasonal_forecast [(0, 7), (1, 7), (2, 7), (3, 7), (4, 7), (5, 7), (6, 14)] 1
      = [{ forecast_date := 7, forecasted_usage := some 14, seasonal_factor := some (7/4),
           base_fc := 8 }] ∧
    pandasDow 7 = 0 ∧ snowflakeDow 7 = 1 ∧
    factor_val [(0, 7), (1, 7), (2, 7), (3, 7), (4, 7), (5, 7), (6, 14)] (snowflakeDow 7)
      = 7 / 8 ∧
    base_forecast [(0, 7), (1, 7), (2, 7), (3, 7), (4, 7), (5, 7), (6, 14)]
      * factor_val [(0, 7), (1, 7), (2, 7), (3, 7), (4, 7), (5, 7), (6, 14)] (snowflakeDow 7)
      = 7 ∧
    (14 : ℚ) ≠ 7 := by
  refine ⟨?_, by decide, by decide, ?_, ?_, by norm_num⟩
  · norm_num [create_seasonal_forecast, last_date, forecast_value, factor_lookup, factor_val,
      bucket, overall_mean, issuedVals, base_forecast, listMean, snowflakeDow, pandasDow,
      round2, roundHalfEven, List.range_succ, List.filter]
  · norm_num [factor_val, bucket, overall_mean, issuedVals, listMean, snowflakeDow,
      List.filter]
  · norm_num [base_forecast, factor_val, bucket, overall_mean, issuedVals, listMean,
      snowflakeDow, List.filter]
